import Mathlib

/-!
Shallow embedding of `src/missile-launcher.c`, a command-line controller for a
USB missile launcher toy.  The HID transport (`hid_write` / `hid_read`) is
modelled as an oracle giving the result of the n-th write and the n-th read;
every transport interaction and every sleep is recorded in an event trace.
-/

namespace MissileLauncher

/-- Output report command byte values (from the C `#define`s). -/
def CMD_MOVE_DOWN : Nat := 0x01

def CMD_MOVE_UP : Nat := 0x02

def CMD_MOVE_LEFT : Nat := 0x04

def CMD_MOVE_RIGHT : Nat := 0x08

def CMD_FIRE : Nat := 0x10

def CMD_STOP : Nat := 0x20

def CMD_GET_STATUS : Nat := 0x40

/-- Input report status bit masks (from the C `#define`s). -/
def STATUS_DOWN_LIMIT : Nat := 0x01

def STATUS_UP_LIMIT : Nat := 0x02

def STATUS_LEFT_LIMIT : Nat := 0x04

def STATUS_RIGHT_LIMIT : Nat := 0x08

def STATUS_DEVICE_FIRED : Nat := 0x10

/-- Default delay times in microseconds (from the C `#define`s). -/
def MOVE_HOLD_TIME_US : Nat := 100000

def FIRE_HOLD_TIME_US : Nat := 500000

/-- The movements that the missile launcher can perform (C `enum movement`). -/
inductive Movement
  | MOVEMENT_NONE
  | MOVEMENT_TILT_UP
  | MOVEMENT_TILT_DOWN
  | MOVEMENT_PAN_LEFT
  | MOVEMENT_PAN_RIGHT
  deriving DecidableEq, Repr

/-- Program option information shared between the command-line parser and the
application logic (C `struct arguments`).  `movement_duration` is in
microseconds. -/
structure Arguments where
  movement : Movement
  movement_duration : Nat
  fire : Bool
  display_status : Bool
  deriving DecidableEq, Repr

/-- Observable interactions of the program with the outside world.
`write frame ok` is one `hid_write` attempt of the given byte frame and
whether the transport reported success; `read r` is one 1-byte `hid_read`
attempt, `none` meaning the read failed; `sleep us` is a `usleep` call. -/
inductive Event
  | write (frame : List Nat) (ok : Bool)
  | read (r : Option Nat)
  | sleep (us : Nat)
  | openDev
  | closeDev
  deriving DecidableEq, Repr

/-- The HID transport, modelled as an oracle: `write n` is whether the n-th
`hid_write` call succeeds, `read n` is the byte delivered by the n-th
`hid_read` call (`none` = read failure). -/
structure Transport where
  write : Nat → Bool
  read : Nat → Option Nat

/-- How many writes and reads have been issued so far (indices into the
transport oracle). -/
structure St where
  writes : Nat
  reads : Nat
  deriving DecidableEq, Repr

/-- C `send_command`: builds the 2-byte output report `[0, cmd]` (byte 0 is
the report number, always 0 for this device) and writes it; returns 0 on
success or -1 when `hid_write` fails. -/
def send_command (t : Transport) (s : St) (cmd : Nat) : Int × St × List Event :=
  let buf : List Nat := [0, cmd]
  let ok := t.write s.writes
  ((if ok then 0 else -1), ⟨s.writes + 1, s.reads⟩, [Event.write buf ok])

/-- C `get_status`: sends `CMD_GET_STATUS` and then reads one status byte.
Returns (ret, status byte if read, state, events); ret is 0 on success and
-1 when either the send or the read fails. -/
def get_status (t : Transport) (s : St) : Int × Option Nat × St × List Event :=
  match send_command t s CMD_GET_STATUS with
  | (0, s', ev) =>
    match t.read s'.reads with
    | some b => (0, some b, ⟨s'.writes, s'.reads + 1⟩, ev ++ [Event.read (some b)])
    | none => (-1, none, ⟨s'.writes, s'.reads + 1⟩, ev ++ [Event.read none])
  | (_, s', ev) => (-1, none, s', ev)

/-- The five status flags printed by C `print_status`. -/
structure StatusReport where
  up_limit : Bool
  down_limit : Bool
  left_limit : Bool
  right_limit : Bool
  fired : Bool
  deriving DecidableEq, Repr

/-- The decoding of a status byte performed by `print_status`'s printf
arguments: each flag is `(status & MASK)` tested for non-zero. -/
def decode_status (status : Nat) : StatusReport :=
  { up_limit := status &&& STATUS_UP_LIMIT ≠ 0
    down_limit := status &&& STATUS_DOWN_LIMIT ≠ 0
    left_limit := status &&& STATUS_LEFT_LIMIT ≠ 0
    right_limit := status &&& STATUS_RIGHT_LIMIT ≠ 0
    fired := status &&& STATUS_DEVICE_FIRED ≠ 0 }

/-- C `print_status`: fetches the status byte and decodes it (the printing
itself is outside the model).  Returns (ret, decoded report if any, state,
events). -/
def print_status (t : Transport) (s : St) :
    Int × Option StatusReport × St × List Event :=
  match get_status t s with
  | (0, some b, s', ev) => (0, some (decode_status b), s', ev)
  | (_, _, s', ev) => (-1, none, s', ev)

/-- The do-while polling loop inside C `fire_missile`: repeatedly call
`get_status` until the `STATUS_DEVICE_FIRED` bit is observed (exit with
ret 0) or a round trip fails (exit with ret -1).  The C loop is unbounded;
`fuel` bounds the recursion and `none` means the bound was hit before the
loop exited. -/
def fire_poll_loop (t : Transport) : Nat → St → Option (Int × St × List Event)
  | 0, _ => none
  | fuel + 1, s =>
    match get_status t s with
    | (0, some b, s', ev) =>
      if b &&& STATUS_DEVICE_FIRED ≠ 0 then some (0, s', ev)
      else
        match fire_poll_loop t fuel s' with
        | some (r, s'', ev') => some (r, s'', ev ++ ev')
        | none => none
    | (_, _, s', ev) => some (-1, s', ev)

/-- C `fire_missile`: send `CMD_FIRE`; poll status until the fired bit is
seen or a round trip fails; on success sleep `FIRE_HOLD_TIME_US` and send
`CMD_STOP`.  Returns 0 only when the fire send, every poll round trip and
the stop send all succeeded. -/
def fire_missile (t : Transport) (s : St) (fuel : Nat) :
    Option (Int × St × List Event) :=
  match send_command t s CMD_FIRE with
  | (0, s', ev) =>
    match fire_poll_loop t fuel s' with
    | some (0, s'', ev') =>
      match send_command t s'' CMD_STOP with
      | (r, s''', ev'') =>
        some (r, s''', ev ++ ev' ++ [Event.sleep FIRE_HOLD_TIME_US] ++ ev'')
    | some (r, s'', ev') => some (r, s'', ev ++ ev')
    | none => none
  | (_, s', ev) => some (-1, s', ev)

/-- The command byte `move_turret` selects for a movement; `none` for the
`default:` branch (unrecognized movement, ret -1 before any send). -/
def movement_cmd : Movement → Option Nat
  | Movement.MOVEMENT_TILT_UP => some CMD_MOVE_UP
  | Movement.MOVEMENT_TILT_DOWN => some CMD_MOVE_DOWN
  | Movement.MOVEMENT_PAN_LEFT => some CMD_MOVE_LEFT
  | Movement.MOVEMENT_PAN_RIGHT => some CMD_MOVE_RIGHT
  | Movement.MOVEMENT_NONE => none

/-- C `move_turret`: send the movement command, `usleep(duration)`, send
`CMD_STOP`.  If the first send fails, the stop is not attempted; if the
movement is unrecognized nothing is sent. -/
def move_turret (t : Transport) (s : St) (movement : Movement) (duration : Nat) :
    Int × St × List Event :=
  match movement_cmd movement with
  | none => (-1, s, [])
  | some cmd =>
    match send_command t s cmd with
    | (0, s', ev) =>
      match send_command t s' CMD_STOP with
      | (r, s'', ev') => (r, s'', ev ++ [Event.sleep duration] ++ ev')
    | (_, s', ev) => (-1, s', ev)

/-- The default `struct arguments` values set at the top of C `main` before
argument parsing: no movement, `MOVE_HOLD_TIME_US` duration, no fire, no
status display. -/
def default_arguments : Arguments :=
  { movement := Movement.MOVEMENT_NONE
    movement_duration := MOVE_HOLD_TIME_US
    fire := false
    display_status := false }

/-- The "perform the requested movement, if any" block of C `main`: call
`move_turret` when a movement was requested, mapping a non-zero result to
`EXIT_FAILURE` (1).  Returns (exit code so far, transport state, events). -/
def main_move_step (t : Transport) (args : Arguments) : Nat × St × List Event :=
  if args.movement ≠ Movement.MOVEMENT_NONE then
    match move_turret t ⟨0, 0⟩ args.movement args.movement_duration with
    | (r, s, ev) => ((if r ≠ 0 then 1 else 0), s, ev)
  else (0, ⟨0, 0⟩, [])

/-- The "fire a single shot" block of C `main`: runs `fire_missile` when
`--fire` was given and nothing has failed yet. -/
def main_fire_step (t : Transport) (args : Arguments) (fuel : Nat)
    (ret1 : Nat) (s1 : St) : Option (Nat × St × List Event) :=
  if args.fire ∧ ret1 = 0 then
    match fire_missile t s1 fuel with
    | some (r, s, ev) => some ((if r ≠ 0 then 1 else ret1), s, ev)
    | none => none
  else some (ret1, s1, [])

/-- The "display the status information" block of C `main`: runs
`print_status` when `--status` was given and nothing has failed yet. -/
def main_status_step (t : Transport) (args : Arguments)
    (ret2 : Nat) (s2 : St) : Nat × St × List Event :=
  if args.display_status ∧ ret2 = 0 then
    match print_status t s2 with
    | (r, _, s, ev) => ((if r ≠ 0 then 1 else ret2), s, ev)
  else (ret2, s2, [])

/-- C `main` after argument parsing: open the device (`openOk` models
whether `hid_open` succeeds); if open, perform the requested movement, then
fire if requested and nothing failed yet, then print status if requested
and nothing failed yet, and finally close the device.  Returns the exit
code (0 = EXIT_SUCCESS, 1 = EXIT_FAILURE) and the event trace; `none` means
the fire polling loop exceeded `fuel`. -/
def main (openOk : Bool) (t : Transport) (args : Arguments) (fuel : Nat) :
    Option (Nat × List Event) :=
  if openOk then
    match main_move_step t args with
    | (ret1, s1, ev1) =>
      match main_fire_step t args fuel ret1 s1 with
      | none => none
      | some (ret2, s2, ev2) =>
        match main_status_step t args ret2 s2 with
        | (ret3, _, ev3) =>
          some (ret3, Event.openDev :: (ev1 ++ ev2 ++ ev3) ++ [Event.closeDev])
  else
    some (1, [])

/-- C `isspace` for the default locale (the six standard whitespace
characters skipped by `strtoul`). -/
def isSpaceChar (c : Char) : Bool :=
  c = ' ' ∨ c = '\t' ∨ c = '\n' ∨ c = Char.ofNat 11 ∨ c = Char.ofNat 12 ∨ c = '\r'

/-- Numeric value of a character as a digit up to base 16, `none` when it is
not a hexadecimal digit. -/
def hexDigitVal (c : Char) : Option Nat :=
  if '0' ≤ c ∧ c ≤ '9' then some (c.toNat - 48)
  else if 'a' ≤ c ∧ c ≤ 'f' then some (c.toNat - 87)
  else if 'A' ≤ c ∧ c ≤ 'F' then some (c.toNat - 55)
  else none

/-- Numeric value of a character as a digit in the given base. -/
def digitVal (base : Nat) (c : Char) : Option Nat :=
  match hexDigitVal c with
  | some v => if v < base then some v else none
  | none => none

/-- Accumulate consecutive digits of `base`; returns the value and how many
characters were consumed. -/
def parseDigits (base : Nat) : List Char → Nat → Nat → Nat × Nat
  | [], acc, n => (acc, n)
  | c :: rest, acc, n =>
    match digitVal base c with
    | some v => parseDigits base rest (acc * base + v) (n + 1)
    | none => (acc, n)

/-- `ULONG_MAX` on the 64-bit target. -/
def ULONG_MAX : Nat := 2 ^ 64 - 1

/-- Clamp the parsed magnitude to `ULONG_MAX` (`strtoul` returns
`ULONG_MAX` on overflow) and apply unsigned negation for a leading `-`. -/
def strtoulFinish (mag : Nat) (neg : Bool) : Nat :=
  let v := min mag ULONG_MAX
  if neg then (2 ^ 64 - v) % 2 ^ 64 else v

/-- C `strtoul(s, &endptr, 0)`: skip whitespace, optional sign, base
detection (`0x`/`0X` → 16, leading `0` → 8, otherwise 10), digits.
Returns the value and the number of characters consumed (the `endptr`
offset); when no conversion is performed the offset is 0 (`endptr`
points back at the start of the string). -/
def strtoul0 (s : List Char) : Nat × Nat :=
  let ws := (s.takeWhile isSpaceChar).length
  let rest1 := s.dropWhile isSpaceChar
  match rest1 with
  | '-' :: r => strtoul0Body ws 1 true r
  | '+' :: r => strtoul0Body ws 1 false r
  | r => strtoul0Body ws 0 false r

where
  /-- Parse the part after whitespace and sign; `ws` and `signLen` are how
  many characters the whitespace and the sign took. -/
  strtoul0Body (ws signLen : Nat) (neg : Bool)
      (r : List Char) : Nat × Nat :=
    match r with
    | '0' :: x :: rest =>
      if x = 'x' ∨ x = 'X' then
        match rest with
        | c :: _ =>
          match hexDigitVal c with
          | some _ =>
            let (mag, n) := parseDigits 16 rest 0 0
            (strtoulFinish mag neg, ws + signLen + 2 + n)
          | none => (strtoulFinish 0 neg, ws + signLen + 1)
        | [] => (strtoulFinish 0 neg, ws + signLen + 1)
      else
        let (mag, n) := parseDigits 8 ('0' :: x :: rest) 0 0
        (strtoulFinish mag neg, ws + signLen + n)
    | ['0'] => (strtoulFinish 0 neg, ws + signLen + 1)
    | _ =>
      let (mag, n) := parseDigits 10 r 0 0
      if n = 0 then (0, 0) else (strtoulFinish mag neg, ws + signLen + n)

/-- The `case 't'` branch of C `parse_opt`: run `strtoul(arg, &endptr, 0)`
and accept when `arg != '\0' && *endptr == '\0' && duration_ms < 10000`
(the first conjunct compares the `arg` pointer against a null pointer, and
argp always passes a non-null argument for an option that requires one, so
it is always true; `*endptr == '\0'` means the whole string was consumed).
On acceptance the movement duration becomes `duration_ms * 1000`
microseconds; `none` models the rejection path (`argp_usage`, which exits). -/
def time_option_result (arg : List Char) : Option Nat :=
  let (duration_ms, consumed) := strtoul0 arg
  if consumed = arg.length ∧ duration_ms < 10000 then some (duration_ms * 1000)
  else none

/-! ### Property vocabulary and mock transports -/

/-- Whether a recorded transport interaction succeeded: a write that the
transport accepted, a read that delivered a byte; sleeps and open/close are
not transport interactions and count as fine. -/
def eventOk : Event → Bool
  | Event.write _ ok => ok
  | Event.read r => r.isSome
  | _ => true

/-- Events a status-poll round trip can fail with: a failed `GetStatus`
write or a failed read. -/
def pollFailed : Event → Bool
  | Event.write frame ok => frame = [0, CMD_GET_STATUS] ∧ ok = false
  | Event.read r => r = none
  | _ => false

/-- An "active movement" command frame: any of the four Move commands or
Fire. -/
def isActive : Event → Bool
  | Event.write frame _ =>
    frame = [0, CMD_MOVE_DOWN] ∨ frame = [0, CMD_MOVE_UP] ∨
      frame = [0, CMD_MOVE_LEFT] ∨ frame = [0, CMD_MOVE_RIGHT] ∨
      frame = [0, CMD_FIRE]
  | _ => false

/-- A Stop command frame. -/
def isStop : Event → Bool
  | Event.write frame _ => frame = [0, CMD_STOP]
  | _ => false

/-- Device open/close events (as opposed to transport reads/writes/sleeps). -/
def isOpenClose : Event → Bool
  | Event.openDev => true
  | Event.closeDev => true
  | _ => false

/-- Checks along a trace that no active-movement command is issued while a
previous one is still outstanding (`armed`); a Stop clears the outstanding
state. -/
def noSecondActive : List Event → Bool → Bool
  | [], _ => true
  | e :: rest, armed =>
    if isActive e then !armed && noSecondActive rest true
    else if isStop e then noSecondActive rest false
    else noSecondActive rest armed

/-- The outstanding-active-movement state after a trace. -/
def armedAfter : List Event → Bool → Bool
  | [], a => a
  | e :: rest, a =>
    armedAfter rest (if isActive e then true else if isStop e then false else a)

/-- A transport on which every write succeeds and every read returns byte
0 (no limits hit, not fired). -/
def mockAllOk : Transport :=
  { write := fun _ => true, read := fun _ => some 0 }

/-- A transport on which every write fails. -/
def mockWriteFails : Transport :=
  { write := fun _ => false, read := fun _ => some 0 }

/-- A transport on which everything succeeds; the first three reads report
`fired = false` and the fourth reports `fired = true`. -/
def mockFire : Transport :=
  { write := fun _ => true
    read := fun n => some (if n < 3 then 0 else STATUS_DEVICE_FIRED) }

/-- A transport on which every write succeeds, the first read returns byte
0 and every later read fails. -/
def mockRead2Fails : Transport :=
  { write := fun _ => true
    read := fun n => if n = 0 then some 0 else none }

/-- The event trace of the successful `fire_missile` run against
`mockFire`: the Fire write, four GetStatus+read round trips (the fourth
observing the fired bit), the overshoot sleep, and one Stop write. -/
def fireTraceOk : List Event :=
  [Event.write [0, CMD_FIRE] true,
   Event.write [0, CMD_GET_STATUS] true, Event.read (some 0),
   Event.write [0, CMD_GET_STATUS] true, Event.read (some 0),
   Event.write [0, CMD_GET_STATUS] true, Event.read (some 0),
   Event.write [0, CMD_GET_STATUS] true, Event.read (some STATUS_DEVICE_FIRED),
   Event.sleep FIRE_HOLD_TIME_US,
   Event.write [0, CMD_STOP] true]

/-- C3: every command is sent to the transport as exactly one 2-byte frame
whose byte 0 is always 0x00 and whose byte 1 is the command's fixed wire
value (MoveDown=0x01, MoveUp=0x02, MoveLeft=0x04, MoveRight=0x08,
Fire=0x10, Stop=0x20, GetStatus=0x40); the frame is built unconditionally
from the command (pure, cannot fail), and `move_turret` selects the
documented wire value for each direction. -/
theorem send_command_frame_spec (t : Transport) (s : St) (cmd : Nat) :
    (send_command t s cmd).2.2 = [Event.write [0, cmd] (t.write s.writes)] ∧
    CMD_MOVE_DOWN = 0x01 ∧ CMD_MOVE_UP = 0x02 ∧ CMD_MOVE_LEFT = 0x04 ∧
    CMD_MOVE_RIGHT = 0x08 ∧ CMD_FIRE = 0x10 ∧ CMD_STOP = 0x20 ∧
    CMD_GET_STATUS = 0x40 ∧
    movement_cmd Movement.MOVEMENT_TILT_DOWN = some CMD_MOVE_DOWN ∧
    movement_cmd Movement.MOVEMENT_TILT_UP = some CMD_MOVE_UP ∧
    movement_cmd Movement.MOVEMENT_PAN_LEFT = some CMD_MOVE_LEFT ∧
    movement_cmd Movement.MOVEMENT_PAN_RIGHT = some CMD_MOVE_RIGHT :=
  ⟨rfl, rfl, rfl, rfl, rfl, rfl, rfl, rfl, rfl, rfl, rfl, rfl⟩

/-- C4: the status query sends one GetStatus frame and reads exactly one
byte — its trace and result are fully determined by whether the send and
the read succeed, and it fails exactly when one of them fails; for every
byte value below 256 each of the five flags decodes as `(byte & mask) != 0`
with masks DownLimit=0x01, UpLimit=0x02, LeftLimit=0x04, RightLimit=0x08,
Fired=0x10; in particular byte 0x05 decodes to down_limit and left_limit
true and the rest false. -/
theorem query_status_spec :
    (∀ t s b, t.write s.writes = true → t.read s.reads = some b →
      get_status t s = (0, some b, ⟨s.writes + 1, s.reads + 1⟩,
        [Event.write [0, CMD_GET_STATUS] true, Event.read (some b)])) ∧
    (∀ t s, t.write s.writes = false →
      get_status t s = (-1, none, ⟨s.writes + 1, s.reads⟩,
        [Event.write [0, CMD_GET_STATUS] false])) ∧
    (∀ t s, t.write s.writes = true → t.read s.reads = none →
      get_status t s = (-1, none, ⟨s.writes + 1, s.reads + 1⟩,
        [Event.write [0, CMD_GET_STATUS] true, Event.read none])) ∧
    (∀ b : Nat, b < 256 →
      (decode_status b).down_limit = decide (b &&& 0x01 ≠ 0) ∧
      (decode_status b).up_limit = decide (b &&& 0x02 ≠ 0) ∧
      (decode_status b).left_limit = decide (b &&& 0x04 ≠ 0) ∧
      (decode_status b).right_limit = decide (b &&& 0x08 ≠ 0) ∧
      (decode_status b).fired = decide (b &&& 0x10 ≠ 0)) ∧
    decode_status 0x05 =
      { up_limit := false, down_limit := true, left_limit := true,
        right_limit := false, fired := false } := by
  set_option maxRecDepth 10000 in
  refine ⟨?_, ?_, ?_, ?_, by decide⟩
  · intro t s b hw hr
    simp [get_status, send_command, hw, hr]
  · intro t s hw
    simp [get_status, send_command, hw]
  · intro t s hw hr
    simp [get_status, send_command, hw, hr]
  · decide

theorem query_status_spec_witness :
    get_status mockAllOk ⟨0, 0⟩ = (0, some 0, ⟨1, 1⟩,
      [Event.write [0, CMD_GET_STATUS] true, Event.read (some 0)]) :=
  query_status_spec.1 mockAllOk ⟨0, 0⟩ 0 rfl rfl

/-- C2: when both transport writes succeed, `move_turret` performs exactly
two writes (the Move frame for the direction, then Stop) with the
`usleep(duration)` recorded between them, and succeeds; when the first
write fails it makes exactly one write attempt, does not attempt Stop, and
fails immediately; it returns success iff both sends succeed. -/
theorem move_turret_spec (t : Transport) (s : St) (m : Movement) (d : Nat)
    (c : Nat) (hc : movement_cmd m = some c) :
    (t.write s.writes = true → t.write (s.writes + 1) = true →
      move_turret t s m d = (0, ⟨s.writes + 2, s.reads⟩,
        [Event.write [0, c] true, Event.sleep d, Event.write [0, CMD_STOP] true])) ∧
    (t.write s.writes = false →
      move_turret t s m d = (-1, ⟨s.writes + 1, s.reads⟩,
        [Event.write [0, c] false])) ∧
    ((move_turret t s m d).1 = 0 ↔
      t.write s.writes = true ∧ t.write (s.writes + 1) = true) := by
  refine ⟨?_, ?_, ?_⟩
  · intro h1 h2
    simp [move_turret, send_command, hc, h1, h2]
  · intro h1
    simp [move_turret, send_command, hc, h1]
  · cases h1 : t.write s.writes <;> cases h2 : t.write (s.writes + 1) <;>
      simp [move_turret, send_command, hc, h1, h2]

theorem move_turret_spec_witness :
    move_turret mockAllOk ⟨0, 0⟩ Movement.MOVEMENT_PAN_LEFT 2500 =
      (0, ⟨2, 0⟩, [Event.write [0, CMD_MOVE_LEFT] true, Event.sleep 2500,
        Event.write [0, CMD_STOP] true]) :=
  (move_turret_spec mockAllOk ⟨0, 0⟩ Movement.MOVEMENT_PAN_LEFT 2500
    CMD_MOVE_LEFT rfl).1 rfl rfl

theorem fire_poll_loop_step_wfail (t : Transport) (fuel : Nat) (s : St)
    (hw : t.write s.writes = false) :
    fire_poll_loop t (fuel + 1) s =
      some (-1, ⟨s.writes + 1, s.reads⟩,
        [Event.write [0, CMD_GET_STATUS] false]) := by
  rw [fire_poll_loop]
  simp [get_status, send_command, hw]

theorem fire_poll_loop_step_rfail (t : Transport) (fuel : Nat) (s : St)
    (hw : t.write s.writes = true) (hr : t.read s.reads = none) :
    fire_poll_loop t (fuel + 1) s =
      some (-1, ⟨s.writes + 1, s.reads + 1⟩,
        [Event.write [0, CMD_GET_STATUS] true, Event.read none]) := by
  rw [fire_poll_loop]
  simp [get_status, send_command, hw, hr]

theorem fire_poll_loop_step_fired (t : Transport) (fuel : Nat) (s : St) (b : Nat)
    (hw : t.write s.writes = true) (hr : t.read s.reads = some b)
    (hb : b &&& STATUS_DEVICE_FIRED ≠ 0) :
    fire_poll_loop t (fuel + 1) s =
      some (0, ⟨s.writes + 1, s.reads + 1⟩,
        [Event.write [0, CMD_GET_STATUS] true, Event.read (some b)]) := by
  rw [fire_poll_loop]
  simp [get_status, send_command, hw, hr, hb]

theorem fire_poll_loop_step_cont (t : Transport) (fuel : Nat) (s : St) (b : Nat)
    (hw : t.write s.writes = true) (hr : t.read s.reads = some b)
    (hb : b &&& STATUS_DEVICE_FIRED = 0) (r : Int) (s' : St) (ev' : List Event)
    (hrec : fire_poll_loop t fuel ⟨s.writes + 1, s.reads + 1⟩ = some (r, s', ev')) :
    fire_poll_loop t (fuel + 1) s =
      some (r, s', Event.write [0, CMD_GET_STATUS] true ::
        Event.read (some b) :: ev') := by
  rw [fire_poll_loop]
  simp [get_status, send_command, hw, hr, hb, hrec]

theorem fire_poll_loop_step_cont_none (t : Transport) (fuel : Nat) (s : St) (b : Nat)
    (hw : t.write s.writes = true) (hr : t.read s.reads = some b)
    (hb : b &&& STATUS_DEVICE_FIRED = 0)
    (hrec : fire_poll_loop t fuel ⟨s.writes + 1, s.reads + 1⟩ = none) :
    fire_poll_loop t (fuel + 1) s = none := by
  rw [fire_poll_loop]
  simp [get_status, send_command, hw, hr, hb, hrec]

theorem fire_poll_loop_result (t : Transport) : ∀ fuel s r s' ev,
    fire_poll_loop t fuel s = some (r, s', ev) → r = 0 ∨ r = -1 := by
  intro fuel
  induction fuel with
  | zero => intro s r s' ev h; simp [fire_poll_loop] at h
  | succ n ih =>
    intro s r s' ev h
    cases hw : t.write s.writes
    · rw [fire_poll_loop_step_wfail t n s hw] at h
      simp at h
      exact Or.inr h.1.symm
    · cases hr : t.read s.reads with
      | none =>
        rw [fire_poll_loop_step_rfail t n s hw hr] at h
        simp at h
        exact Or.inr h.1.symm
      | some b =>
        by_cases hb : b &&& STATUS_DEVICE_FIRED = 0
        · cases hrec : fire_poll_loop t n ⟨s.writes + 1, s.reads + 1⟩ with
          | none =>
            rw [fire_poll_loop_step_cont_none t n s b hw hr hb hrec] at h
            simp at h
          | some out =>
            obtain ⟨r0, s0, ev0⟩ := out
            rw [fire_poll_loop_step_cont t n s b hw hr hb r0 s0 ev0 hrec] at h
            simp at h
            obtain ⟨h1, -, -⟩ := h
            exact h1 ▸ ih _ _ _ _ hrec
        · rw [fire_poll_loop_step_fired t n s b hw hr hb] at h
          simp at h
          exact Or.inl h.1.symm

theorem fire_poll_loop_ok (t : Transport) : ∀ fuel s r s' ev,
    fire_poll_loop t fuel s = some (r, s', ev) →
    (r = 0 ↔ ev.all eventOk = true) := by
  intro fuel
  induction fuel with
  | zero => intro s r s' ev h; simp [fire_poll_loop] at h
  | succ n ih =>
    intro s r s' ev h
    cases hw : t.write s.writes
    · rw [fire_poll_loop_step_wfail t n s hw] at h
      simp at h
      obtain ⟨h1, -, h3⟩ := h
      subst h1 h3
      simp [eventOk]
    · cases hr : t.read s.reads with
      | none =>
        rw [fire_poll_loop_step_rfail t n s hw hr] at h
        simp at h
        obtain ⟨h1, -, h3⟩ := h
        subst h1 h3
        simp [eventOk]
      | some b =>
        by_cases hb : b &&& STATUS_DEVICE_FIRED = 0
        · cases hrec : fire_poll_loop t n ⟨s.writes + 1, s.reads + 1⟩ with
          | none =>
            rw [fire_poll_loop_step_cont_none t n s b hw hr hb hrec] at h
            simp at h
          | some out =>
            obtain ⟨r0, s0, ev0⟩ := out
            rw [fire_poll_loop_step_cont t n s b hw hr hb r0 s0 ev0 hrec] at h
            simp at h
            obtain ⟨h1, -, h3⟩ := h
            subst h1 h3
            simpa [eventOk] using ih _ _ _ _ hrec
        · rw [fire_poll_loop_step_fired t n s b hw hr hb] at h
          simp at h
          obtain ⟨h1, -, h3⟩ := h
          subst h1 h3
          simp [eventOk]

theorem fire_poll_loop_events (t : Transport) : ∀ fuel s r s' ev,
    fire_poll_loop t fuel s = some (r, s', ev) →
    ∀ e ∈ ev, (∃ ok, e = Event.write [0, CMD_GET_STATUS] ok) ∨
      ∃ ro, e = Event.read ro := by
  intro fuel
  induction fuel with
  | zero => intro s r s' ev h; simp [fire_poll_loop] at h
  | succ n ih =>
    intro s r s' ev h
    cases hw : t.write s.writes
    · rw [fire_poll_loop_step_wfail t n s hw] at h
      simp at h
      obtain ⟨-, -, h3⟩ := h
      subst h3
      simp
    · cases hr : t.read s.reads with
      | none =>
        rw [fire_poll_loop_step_rfail t n s hw hr] at h
        simp at h
        obtain ⟨-, -, h3⟩ := h
        subst h3
        simp
      | some b =>
        by_cases hb : b &&& STATUS_DEVICE_FIRED = 0
        · cases hrec : fire_poll_loop t n ⟨s.writes + 1, s.reads + 1⟩ with
          | none =>
            rw [fire_poll_loop_step_cont_none t n s b hw hr hb hrec] at h
            simp at h
          | some out =>
            obtain ⟨r0, s0, ev0⟩ := out
            rw [fire_poll_loop_step_cont t n s b hw hr hb r0 s0 ev0 hrec] at h
            simp at h
            obtain ⟨-, -, h3⟩ := h
            subst h3
            intro e he
            simp at he
            rcases he with he | he | he
            · exact Or.inl ⟨true, he⟩
            · exact Or.inr ⟨some b, he⟩
            · exact ih _ _ _ _ hrec e he
        · rw [fire_poll_loop_step_fired t n s b hw hr hb] at h
          simp at h
          obtain ⟨-, -, h3⟩ := h
          subst h3
          simp

theorem fire_poll_loop_fail (t : Transport) : ∀ fuel s r s' ev,
    fire_poll_loop t fuel s = some (r, s', ev) → r ≠ 0 →
    ∃ ev₀ e, ev = ev₀ ++ [e] ∧ pollFailed e = true ∧ ev₀.all eventOk = true := by
  intro fuel
  induction fuel with
  | zero => intro s r s' ev h; simp [fire_poll_loop] at h
  | succ n ih =>
    intro s r s' ev h hr0
    cases hw : t.write s.writes
    · rw [fire_poll_loop_step_wfail t n s hw] at h
      simp at h
      obtain ⟨-, -, h3⟩ := h
      subst h3
      exact ⟨[], Event.write [0, CMD_GET_STATUS] false, by simp, by decide, by simp⟩
    · cases hr : t.read s.reads with
      | none =>
        rw [fire_poll_loop_step_rfail t n s hw hr] at h
        simp at h
        obtain ⟨-, -, h3⟩ := h
        subst h3
        exact ⟨[Event.write [0, CMD_GET_STATUS] true], Event.read none,
          by simp, by decide, by decide⟩
      | some b =>
        by_cases hb : b &&& STATUS_DEVICE_FIRED = 0
        · cases hrec : fire_poll_loop t n ⟨s.writes + 1, s.reads + 1⟩ with
          | none =>
            rw [fire_poll_loop_step_cont_none t n s b hw hr hb hrec] at h
            simp at h
          | some out =>
            obtain ⟨r0, s0, ev0⟩ := out
            rw [fire_poll_loop_step_cont t n s b hw hr hb r0 s0 ev0 hrec] at h
            simp at h
            obtain ⟨h1, -, h3⟩ := h
            subst h3
            obtain ⟨ev₀, e, he, hpf, hok⟩ := ih _ _ _ _ hrec (h1 ▸ hr0)
            refine ⟨Event.write [0, CMD_GET_STATUS] true ::
              Event.read (some b) :: ev₀, e, by simp [he], hpf, ?_⟩
            simpa [eventOk] using hok
        · rw [fire_poll_loop_step_fired t n s b hw hr hb] at h
          simp at h
          obtain ⟨h1, -, -⟩ := h
          exact absurd h1.symm hr0

theorem fire_missile_wfail (t : Transport) (s : St) (fuel : Nat)
    (hw : t.write s.writes = false) :
    fire_missile t s fuel =
      some (-1, ⟨s.writes + 1, s.reads⟩, [Event.write [0, CMD_FIRE] false]) := by
  simp [fire_missile, send_command, hw]

theorem fire_missile_loopnone (t : Transport) (s : St) (fuel : Nat)
    (hw : t.write s.writes = true)
    (hl : fire_poll_loop t fuel ⟨s.writes + 1, s.reads⟩ = none) :
    fire_missile t s fuel = none := by
  simp [fire_missile, send_command, hw, hl]

theorem fire_missile_loop0 (t : Transport) (s : St) (fuel : Nat)
    (s'' : St) (ev' : List Event) (hw : t.write s.writes = true)
    (hl : fire_poll_loop t fuel ⟨s.writes + 1, s.reads⟩ = some (0, s'', ev')) :
    fire_missile t s fuel =
      some ((if t.write s''.writes = true then 0 else -1),
        ⟨s''.writes + 1, s''.reads⟩,
        Event.write [0, CMD_FIRE] true :: ev' ++
          [Event.sleep FIRE_HOLD_TIME_US,
           Event.write [0, CMD_STOP] (t.write s''.writes)]) := by
  cases hstop : t.write s''.writes <;>
    simp [fire_missile, send_command, hw, hl, hstop]

theorem fire_missile_loopfail (t : Transport) (s : St) (fuel : Nat)
    (r : Int) (s'' : St) (ev' : List Event) (hw : t.write s.writes = true)
    (hl : fire_poll_loop t fuel ⟨s.writes + 1, s.reads⟩ = some (r, s'', ev'))
    (hr : r ≠ 0) :
    fire_missile t s fuel = some (r, s'', Event.write [0, CMD_FIRE] true :: ev') := by
  simp [fire_missile, send_command, hw, hl, hr]

/-- C1: after the Fire send succeeds, `fire_missile` repeats GetStatus-send
plus one-byte-read round trips until a byte with the fired bit 0x10 is
read, then sends exactly one Stop; against the mock transport that reports
fired only on the fourth poll the trace is exactly the Fire write, four
GetStatus+read round trips, the overshoot sleep and one Stop write, and
the run succeeds; in general the result is success iff the Fire send,
every poll round trip and the final Stop send all succeeded. -/
theorem fire_missile_spec :
    (fire_missile mockFire ⟨0, 0⟩ 10 = some (0, ⟨6, 4⟩, fireTraceOk) ∧
     fireTraceOk.count (Event.write [0, CMD_GET_STATUS] true) = 4 ∧
     fireTraceOk.count (Event.read (some 0)) = 3 ∧
     fireTraceOk.count (Event.read (some STATUS_DEVICE_FIRED)) = 1 ∧
     fireTraceOk.count (Event.write [0, CMD_STOP] true) = 1 ∧
     fireTraceOk.getLast? = some (Event.write [0, CMD_STOP] true)) ∧
    ∀ t s fuel r s' ev, fire_missile t s fuel = some (r, s', ev) →
      (r = 0 ↔ ev.all eventOk = true) := by
  constructor
  · exact ⟨by decide, by decide, by decide, by decide, by decide, by decide⟩
  · intro t s fuel r s' ev h
    cases hw : t.write s.writes
    · rw [fire_missile_wfail t s fuel hw] at h
      simp at h
      obtain ⟨h1, -, h3⟩ := h
      subst h3
      simp [eventOk, ← h1]
    · cases hl : fire_poll_loop t fuel ⟨s.writes + 1, s.reads⟩ with
      | none =>
        rw [fire_missile_loopnone t s fuel hw hl] at h
        simp at h
      | some out =>
        obtain ⟨r0, s0, ev0⟩ := out
        rcases eq_or_ne r0 0 with h0 | h0
        · subst h0
          rw [fire_missile_loop0 t s fuel s0 ev0 hw hl] at h
          simp at h
          obtain ⟨h1, -, h3⟩ := h
          subst h3
          have hok := (fire_poll_loop_ok t fuel _ _ _ _ hl).mp rfl
          cases hstop : t.write s0.writes
          · rw [hstop] at h1
            simp at h1
            subst h1
            simp [eventOk, List.all_append, hok, hstop]
          · rw [hstop] at h1
            simp at h1
            subst h1
            simp [eventOk, List.all_append, hok, hstop]
        · rw [fire_missile_loopfail t s fuel r0 s0 ev0 hw hl h0] at h
          simp at h
          obtain ⟨h1, -, h3⟩ := h
          subst h3
          have hnok := fire_poll_loop_ok t fuel _ _ _ _ hl
          constructor
          · intro hr; exact absurd (h1 ▸ hr) h0
          · intro hall
            rw [List.all_cons, Bool.and_eq_true] at hall
            exact absurd (hnok.mpr hall.2) h0

theorem fire_missile_spec_witness :
    ((0 : Int) = 0 ↔ fireTraceOk.all eventOk = true) :=
  fire_missile_spec.2 mockFire ⟨0, 0⟩ 10 0 ⟨6, 4⟩ fireTraceOk (by decide)

theorem pollFailed_not_ok (e : Event) (h : pollFailed e = true) :
    eventOk e = false := by
  cases e with
  | write f ok =>
    simp [pollFailed] at h
    simp [eventOk, h.2]
  | read r =>
    cases r with
    | none => simp [eventOk]
    | some b => simp [pollFailed] at h
  | sleep us => simp [pollFailed] at h
  | openDev => simp [pollFailed] at h
  | closeDev => simp [pollFailed] at h

theorem fire_poll_loop_no_sleep_stop (t : Transport) (fuel : Nat) (s : St)
    (r : Int) (s' : St) (ev : List Event)
    (h : fire_poll_loop t fuel s = some (r, s', ev)) :
    (∀ us, Event.sleep us ∉ ev) ∧ ∀ ok, Event.write [0, CMD_STOP] ok ∉ ev := by
  have hev := fire_poll_loop_events t fuel s r s' ev h
  constructor
  · intro us hm
    rcases hev _ hm with ⟨ok, he⟩ | ⟨ro, he⟩ <;> simp at he
  · intro ok hm
    rcases hev _ hm with ⟨ok', he⟩ | ⟨ro, he⟩ <;>
      simp [CMD_STOP, CMD_GET_STATUS] at he

/-- C5: if any status-poll round trip of `fire_missile` fails (the
GetStatus send or the one-byte read), the run stops at that failure: the
failing event is the last event of the trace, everything before it had
succeeded, the result is -1, and no overshoot sleep and no Stop write
occur; concretely, against the mock whose second read fails the trace ends
at that read and contains no Stop. -/
theorem fire_error_atomicity_spec :
    (fire_missile mockRead2Fails ⟨0, 0⟩ 10 = some (-1, ⟨3, 2⟩,
      [Event.write [0, CMD_FIRE] true,
       Event.write [0, CMD_GET_STATUS] true, Event.read (some 0),
       Event.write [0, CMD_GET_STATUS] true, Event.read none])) ∧
    ∀ t s fuel r s' ev, fire_missile t s fuel = some (r, s', ev) →
      (∃ e ∈ ev, pollFailed e = true) →
      r = -1 ∧
      (∃ ev₀ e, ev = ev₀ ++ [e] ∧ pollFailed e = true ∧ ev₀.all eventOk = true) ∧
      (∀ us, Event.sleep us ∉ ev) ∧
      ∀ ok, Event.write [0, CMD_STOP] ok ∉ ev := by
  constructor
  · decide
  · intro t s fuel r s' ev h hpf
    cases hw : t.write s.writes
    · rw [fire_missile_wfail t s fuel hw] at h
      simp at h
      obtain ⟨-, -, h3⟩ := h
      subst h3
      obtain ⟨e, he, hp⟩ := hpf
      simp at he
      subst he
      exact absurd hp (by decide)
    · cases hl : fire_poll_loop t fuel ⟨s.writes + 1, s.reads⟩ with
      | none =>
        rw [fire_missile_loopnone t s fuel hw hl] at h
        simp at h
      | some out =>
        obtain ⟨r0, s0, ev0⟩ := out
        rcases eq_or_ne r0 0 with h0 | h0
        · subst h0
          rw [fire_missile_loop0 t s fuel s0 ev0 hw hl] at h
          simp at h
          obtain ⟨-, -, h3⟩ := h
          subst h3
          have hok := (fire_poll_loop_ok t fuel _ _ _ _ hl).mp rfl
          obtain ⟨e, he, hp⟩ := hpf
          simp at he
          rcases he with he | he | he | he
          · subst he; exact absurd hp (by decide)
          · have := List.all_eq_true.mp hok e he
            rw [pollFailed_not_ok e hp] at this
            exact absurd this (by decide)
          · subst he; exact absurd hp (by decide)
          · subst he
            cases hstop : t.write s0.writes <;> rw [hstop] at hp <;>
              exact absurd hp (by decide)
        · have hr1 := (fire_poll_loop_result t fuel _ _ _ _ hl).resolve_left h0
          rw [fire_missile_loopfail t s fuel r0 s0 ev0 hw hl h0] at h
          simp at h
          obtain ⟨h1, -, h3⟩ := h
          subst h3
          obtain ⟨ev₀, e, he0, hpe, hok0⟩ :=
            fire_poll_loop_fail t fuel _ _ _ _ hl h0
          have hns := fire_poll_loop_no_sleep_stop t fuel _ _ _ _ hl
          refine ⟨h1 ▸ hr1, ⟨Event.write [0, CMD_FIRE] true :: ev₀, e, by simp [he0],
            hpe, by simpa [eventOk] using hok0⟩, ?_, ?_⟩
          · intro us hm
            simp at hm
            exact hns.1 us hm
          · intro ok hm
            simp [CMD_STOP, CMD_FIRE] at hm
            exact hns.2 ok hm

theorem fire_error_atomicity_spec_witness :
    ((-1 : Int) = -1 ∧
      (∃ ev₀ e, ([Event.write [0, CMD_FIRE] true,
        Event.write [0, CMD_GET_STATUS] true, Event.read (some 0),
        Event.write [0, CMD_GET_STATUS] true, Event.read none]) = ev₀ ++ [e] ∧
        pollFailed e = true ∧ ev₀.all eventOk = true) ∧
      (∀ us, Event.sleep us ∉ [Event.write [0, CMD_FIRE] true,
        Event.write [0, CMD_GET_STATUS] true, Event.read (some 0),
        Event.write [0, CMD_GET_STATUS] true, Event.read none]) ∧
      ∀ ok, Event.write [0, CMD_STOP] ok ∉ [Event.write [0, CMD_FIRE] true,
        Event.write [0, CMD_GET_STATUS] true, Event.read (some 0),
        Event.write [0, CMD_GET_STATUS] true, Event.read none]) :=
  fire_error_atomicity_spec.2 mockRead2Fails ⟨0, 0⟩ 10 (-1) ⟨3, 2⟩ _
    (by decide) ⟨Event.read none, by decide, by decide⟩

/-- C10: in every successful `fire_missile` run, whatever the transport,
state and fuel, the trace ends with a sleep of exactly
`FIRE_HOLD_TIME_US` = 500000 microseconds followed by the Stop write, and
no other sleep occurs; the constant is a compile-time value that
`fire_missile` takes from no argument, so no command-line option can
change it. -/
theorem fire_overshoot_spec :
    FIRE_HOLD_TIME_US = 500000 ∧
    ∀ t s fuel s' ev, fire_missile t s fuel = some (0, s', ev) →
      ∃ pre, ev = pre ++ [Event.sleep FIRE_HOLD_TIME_US,
        Event.write [0, CMD_STOP] true] ∧ ∀ us, Event.sleep us ∉ pre := by
  constructor
  · rfl
  · intro t s fuel s' ev h
    cases hw : t.write s.writes
    · rw [fire_missile_wfail t s fuel hw] at h
      simp at h
    · cases hl : fire_poll_loop t fuel ⟨s.writes + 1, s.reads⟩ with
      | none =>
        rw [fire_missile_loopnone t s fuel hw hl] at h
        simp at h
      | some out =>
        obtain ⟨r0, s0, ev0⟩ := out
        rcases eq_or_ne r0 0 with h0 | h0
        · subst h0
          rw [fire_missile_loop0 t s fuel s0 ev0 hw hl] at h
          cases hstop : t.write s0.writes
          · rw [hstop] at h
            simp at h
          · rw [hstop] at h
            simp at h
            obtain ⟨-, h3⟩ := h
            have hns := fire_poll_loop_no_sleep_stop t fuel _ _ _ _ hl
            refine ⟨Event.write [0, CMD_FIRE] true :: ev0, by simp [← h3], ?_⟩
            intro us hm
            simp at hm
            exact hns.1 us hm
        · rw [fire_missile_loopfail t s fuel r0 s0 ev0 hw hl h0] at h
          simp at h
          exact absurd h.1 h0

theorem fire_overshoot_spec_witness :
    ∃ pre, fireTraceOk = pre ++ [Event.sleep FIRE_HOLD_TIME_US,
      Event.write [0, CMD_STOP] true] ∧ ∀ us, Event.sleep us ∉ pre :=
  fire_overshoot_spec.2 mockFire ⟨0, 0⟩ 10 ⟨6, 4⟩ fireTraceOk (by decide)

theorem noSecondActive_append (l1 l2 : List Event) (a : Bool) :
    noSecondActive (l1 ++ l2) a =
      (noSecondActive l1 a && noSecondActive l2 (armedAfter l1 a)) := by
  induction l1 generalizing a with
  | nil => simp [noSecondActive, armedAfter]
  | cons e rest ih =>
    cases hA : isActive e
    · cases hS : isStop e
      · simp [noSecondActive, armedAfter, hA, hS, ih]
      · simp [noSecondActive, armedAfter, hA, hS, ih]
    · simp [noSecondActive, armedAfter, hA, ih, Bool.and_assoc]

theorem armedAfter_append (l1 l2 : List Event) (a : Bool) :
    armedAfter (l1 ++ l2) a = armedAfter l2 (armedAfter l1 a) := by
  induction l1 generalizing a with
  | nil => simp [armedAfter]
  | cons e rest ih => simp [armedAfter, ih]

theorem armedAfter_stop (l : List Event) :
    armedAfter l true = false → ∃ e ∈ l, isStop e = true := by
  induction l with
  | nil => intro h; simp [armedAfter] at h
  | cons e rest ih =>
    intro h
    cases hS : isStop e
    · have h' : armedAfter rest true = false := by
        cases hA : isActive e <;> simpa [armedAfter, hA, hS] using h
      obtain ⟨e', he', hs'⟩ := ih h'
      exact ⟨e', List.mem_cons_of_mem _ he', hs'⟩
    · exact ⟨e, List.mem_cons_self _ _, hS⟩

theorem noSecondActive_neutral (l : List Event)
    (h : ∀ e ∈ l, isActive e = false ∧ isStop e = false) :
    ∀ a, noSecondActive l a = true ∧ armedAfter l a = a := by
  induction l with
  | nil => intro a; simp [noSecondActive, armedAfter]
  | cons e rest ih =>
    intro a
    obtain ⟨hA, hS⟩ := h e (by simp)
    have hrest := ih fun e' he' => h e' (List.mem_cons_of_mem _ he')
    constructor
    · simp [noSecondActive, hA, hS, (hrest a).1]
    · simp [armedAfter, hA, hS, (hrest a).2]

theorem noSecondActive_between (l1 : List Event) (e1 : Event) (l2 : List Event)
    (e2 : Event) (l3 : List Event) (a : Bool)
    (hN : noSecondActive (l1 ++ e1 :: (l2 ++ e2 :: l3)) a = true)
    (h1 : isActive e1 = true) (h2 : isActive e2 = true) :
    ∃ e ∈ l2, isStop e = true := by
  rw [noSecondActive_append, Bool.and_eq_true] at hN
  have hN2 := hN.2
  rw [noSecondActive] at hN2
  simp only [h1, if_true] at hN2
  rw [Bool.and_eq_true] at hN2
  have hN3 := hN2.2
  rw [noSecondActive_append, Bool.and_eq_true] at hN3
  have hN4 := hN3.2
  rw [noSecondActive] at hN4
  simp only [h2, if_true] at hN4
  rw [Bool.and_eq_true] at hN4
  have : armedAfter l2 true = false := by
    have := hN4.1
    cases harm : armedAfter l2 true
    · rfl
    · rw [harm] at this; simp at this
  exact armedAfter_stop l2 this

theorem movement_cmd_active (m : Movement) (c : Nat)
    (hc : movement_cmd m = some c) (ok : Bool) :
    isActive (Event.write [0, c] ok) = true := by
  cases m <;> simp [movement_cmd] at hc <;> subst hc <;> rfl

theorem move_turret_eq_wfail (t : Transport) (s : St) (m : Movement) (d c : Nat)
    (hc : movement_cmd m = some c) (hw : t.write s.writes = false) :
    move_turret t s m d = (-1, ⟨s.writes + 1, s.reads⟩,
      [Event.write [0, c] false]) := by
  simp [move_turret, send_command, hc, hw]

theorem move_turret_eq_ok (t : Transport) (s : St) (m : Movement) (d c : Nat)
    (hc : movement_cmd m = some c) (hw : t.write s.writes = true) :
    move_turret t s m d = ((if t.write (s.writes + 1) = true then 0 else -1),
      ⟨s.writes + 2, s.reads⟩,
      [Event.write [0, c] true, Event.sleep d,
       Event.write [0, CMD_STOP] (t.write (s.writes + 1))]) := by
  cases hw2 : t.write (s.writes + 1) <;>
    simp [move_turret, send_command, hc, hw, hw2]

theorem move_turret_trace_facts (t : Transport) (s : St) (m : Movement) (d : Nat)
    (r : Int) (s' : St) (ev : List Event)
    (h : move_turret t s m d = (r, s', ev)) :
    noSecondActive ev false = true ∧
    (r = 0 → armedAfter ev false = false) ∧
    ∀ e ∈ ev, isOpenClose e = false := by
  cases hc : movement_cmd m with
  | none =>
    simp [move_turret, hc] at h
    obtain ⟨h1, -, h3⟩ := h
    subst h3
    refine ⟨rfl, ?_, by simp⟩
    intro h0
    rw [← h1] at h0
    simp at h0
  | some c =>
    cases hw : t.write s.writes
    · rw [move_turret_eq_wfail t s m d c hc hw] at h
      simp at h
      obtain ⟨h1, -, h3⟩ := h
      subst h3
      have hact := movement_cmd_active m c hc false
      refine ⟨?_, ?_, by simp [isOpenClose]⟩
      · simp [noSecondActive, hact]
      · intro h0
        rw [← h1] at h0
        simp at h0
    · rw [move_turret_eq_ok t s m d c hc hw] at h
      simp at h
      obtain ⟨-, -, h3⟩ := h
      subst h3
      have hact := movement_cmd_active m c hc true
      refine ⟨?_, fun _ => ?_, by simp [isOpenClose]⟩
      · simp [noSecondActive, hact, isActive, isStop, armedAfter, CMD_MOVE_DOWN,
          CMD_MOVE_UP, CMD_MOVE_LEFT, CMD_MOVE_RIGHT, CMD_FIRE, CMD_STOP]
      · simp [armedAfter, hact, isActive, isStop, CMD_MOVE_DOWN, CMD_MOVE_UP,
          CMD_MOVE_LEFT, CMD_MOVE_RIGHT, CMD_FIRE, CMD_STOP]

theorem fire_poll_loop_neutral (t : Transport) (fuel : Nat) (s : St)
    (r : Int) (s' : St) (ev : List Event)
    (h : fire_poll_loop t fuel s = some (r, s', ev)) :
    ∀ e ∈ ev, (isActive e = false ∧ isStop e = false) ∧ isOpenClose e = false := by
  intro e he
  rcases fire_poll_loop_events t fuel s r s' ev h e he with ⟨ok, he'⟩ | ⟨ro, he'⟩ <;>
    subst he'
  · exact ⟨⟨by rfl, by rfl⟩, by rfl⟩
  · exact ⟨⟨rfl, rfl⟩, rfl⟩

theorem fire_missile_trace_facts (t : Transport) (s : St) (fuel : Nat)
    (r : Int) (s' : St) (ev : List Event)
    (h : fire_missile t s fuel = some (r, s', ev)) :
    noSecondActive ev false = true ∧
    (r = 0 → armedAfter ev false = false) ∧
    ∀ e ∈ ev, isOpenClose e = false := by
  cases hw : t.write s.writes
  · rw [fire_missile_wfail t s fuel hw] at h
    simp at h
    obtain ⟨h1, -, h3⟩ := h
    subst h3
    refine ⟨by decide, ?_, by decide⟩
    intro h0
    rw [← h1] at h0
    simp at h0
  · cases hl : fire_poll_loop t fuel ⟨s.writes + 1, s.reads⟩ with
    | none =>
      rw [fire_missile_loopnone t s fuel hw hl] at h
      simp at h
    | some out =>
      obtain ⟨r0, s0, ev0⟩ := out
      have hneutral := fire_poll_loop_neutral t fuel _ _ _ _ hl
      have hN := noSecondActive_neutral ev0 fun e he => (hneutral e he).1
      rcases eq_or_ne r0 0 with h0 | h0
      · subst h0
        rw [fire_missile_loop0 t s fuel s0 ev0 hw hl] at h
        simp at h
        obtain ⟨-, -, h3⟩ := h
        subst h3
        refine ⟨?_, fun _ => ?_, ?_⟩
        · rw [noSecondActive]
          simp only [show isActive (Event.write [0, CMD_FIRE] true) = true from rfl,
            if_true]
          rw [noSecondActive_append, (hN true).1, (hN true).2]
          cases t.write s0.writes <;> decide
        · rw [armedAfter]
          simp only [show isActive (Event.write [0, CMD_FIRE] true) = true from rfl,
            if_true]
          rw [armedAfter_append, (hN true).2]
          cases t.write s0.writes <;> decide
        · intro e he
          simp at he
          rcases he with he | he | he | he
          · subst he; rfl
          · exact (hneutral e he).2
          · subst he; rfl
          · subst he; rfl
      · rw [fire_missile_loopfail t s fuel r0 s0 ev0 hw hl h0] at h
        simp at h
        obtain ⟨h1, -, h3⟩ := h
        subst h3
        refine ⟨?_, ?_, ?_⟩
        · rw [noSecondActive]
          simp only [show isActive (Event.write [0, CMD_FIRE] true) = true from rfl,
            if_true]
          simp [(hN true).1]
        · intro hr0
          rw [← h1] at hr0
          exact absurd hr0 h0
        · intro e he
          simp at he
          rcases he with he | he
          · subst he; rfl
          · exact (hneutral e he).2

theorem get_status_eq_ok (t : Transport) (s : St) (b : Nat)
    (hw : t.write s.writes = true) (hr : t.read s.reads = some b) :
    get_status t s = (0, some b, ⟨s.writes + 1, s.reads + 1⟩,
      [Event.write [0, CMD_GET_STATUS] true, Event.read (some b)]) := by
  simp [get_status, send_command, hw, hr]

theorem get_status_eq_wfail (t : Transport) (s : St)
    (hw : t.write s.writes = false) :
    get_status t s = (-1, none, ⟨s.writes + 1, s.reads⟩,
      [Event.write [0, CMD_GET_STATUS] false]) := by
  simp [get_status, send_command, hw]

theorem get_status_eq_rfail (t : Transport) (s : St)
    (hw : t.write s.writes = true) (hr : t.read s.reads = none) :
    get_status t s = (-1, none, ⟨s.writes + 1, s.reads + 1⟩,
      [Event.write [0, CMD_GET_STATUS] true, Event.read none]) := by
  simp [get_status, send_command, hw, hr]

theorem print_status_trace_facts (t : Transport) (s : St) (r : Int)
    (rep : Option StatusReport) (s' : St) (ev : List Event)
    (h : print_status t s = (r, rep, s', ev)) :
    ∀ e ∈ ev, (isActive e = false ∧ isStop e = false) ∧ isOpenClose e = false := by
  cases hw : t.write s.writes
  · rw [print_status, get_status_eq_wfail t s hw] at h
    simp at h
    obtain ⟨-, -, -, h4⟩ := h
    subst h4
    intro e he
    simp at he
    subst he
    exact ⟨⟨rfl, rfl⟩, rfl⟩
  · cases hr : t.read s.reads with
    | none =>
      rw [print_status, get_status_eq_rfail t s hw hr] at h
      simp at h
      obtain ⟨-, -, -, h4⟩ := h
      subst h4
      intro e he
      simp at he
      rcases he with he | he <;> subst he
      · exact ⟨⟨rfl, rfl⟩, rfl⟩
      · exact ⟨⟨rfl, rfl⟩, rfl⟩
    | some b =>
      rw [print_status, get_status_eq_ok t s b hw hr] at h
      simp at h
      obtain ⟨-, -, -, h4⟩ := h
      subst h4
      intro e he
      simp at he
      rcases he with he | he <;> subst he
      · exact ⟨⟨rfl, rfl⟩, rfl⟩
      · exact ⟨⟨rfl, rfl⟩, rfl⟩

theorem main_move_step_cases (t : Transport) (args : Arguments)
    (ret1 : Nat) (s1 : St) (ev1 : List Event)
    (h : main_move_step t args = (ret1, s1, ev1)) :
    (args.movement = Movement.MOVEMENT_NONE ∧ ret1 = 0 ∧ s1 = ⟨0, 0⟩ ∧ ev1 = []) ∨
    (args.movement ≠ Movement.MOVEMENT_NONE ∧ ∃ rm,
      move_turret t ⟨0, 0⟩ args.movement args.movement_duration = (rm, s1, ev1) ∧
      ret1 = if rm = 0 then 0 else 1) := by
  by_cases hm : args.movement = Movement.MOVEMENT_NONE
  · left
    rw [main_move_step] at h
    simp [hm] at h
    obtain ⟨h1, h2, h3⟩ := h
    subst h1 h2 h3
    exact ⟨hm, rfl, rfl, rfl⟩
  · right
    rw [main_move_step] at h
    rcases hmt : move_turret t ⟨0, 0⟩ args.movement args.movement_duration with
      ⟨rm, sm, evm⟩
    rw [if_pos hm, hmt] at h
    simp at h
    obtain ⟨h1, h2, h3⟩ := h
    subst h2 h3
    exact ⟨hm, rm, rfl, h1.symm⟩

theorem main_fire_step_cases (t : Transport) (args : Arguments) (fuel : Nat)
    (ret1 : Nat) (s1 : St) (ret2 : Nat) (s2 : St) (ev2 : List Event)
    (h : main_fire_step t args fuel ret1 s1 = some (ret2, s2, ev2)) :
    (¬(args.fire = true ∧ ret1 = 0) ∧ ret2 = ret1 ∧ s2 = s1 ∧ ev2 = []) ∨
    ((args.fire = true ∧ ret1 = 0) ∧ ∃ rf,
      fire_missile t s1 fuel = some (rf, s2, ev2) ∧
      ret2 = if rf = 0 then ret1 else 1) := by
  by_cases hc : args.fire = true ∧ ret1 = 0
  · right
    rw [main_fire_step] at h
    rw [if_pos (by exact hc)] at h
    cases hf : fire_missile t s1 fuel with
    | none => rw [hf] at h; simp at h
    | some out =>
      obtain ⟨rf, sf, evf⟩ := out
      rw [hf] at h
      simp at h
      obtain ⟨h1, h2, h3⟩ := h
      subst h2 h3
      exact ⟨hc, rf, rfl, h1.symm⟩
  · left
    rw [main_fire_step] at h
    rw [if_neg (by exact hc)] at h
    simp at h
    obtain ⟨h1, h2, h3⟩ := h
    subst h1 h2 h3
    exact ⟨hc, rfl, rfl, rfl⟩

theorem main_status_step_cases (t : Transport) (args : Arguments)
    (ret2 : Nat) (s2 : St) (ret3 : Nat) (s3 : St) (ev3 : List Event)
    (h : main_status_step t args ret2 s2 = (ret3, s3, ev3)) :
    (¬(args.display_status = true ∧ ret2 = 0) ∧ ret3 = ret2 ∧ s3 = s2 ∧ ev3 = []) ∨
    ((args.display_status = true ∧ ret2 = 0) ∧ ∃ rp rep,
      print_status t s2 = (rp, rep, s3, ev3) ∧
      ret3 = if rp = 0 then ret2 else 1) := by
  by_cases hc : args.display_status = true ∧ ret2 = 0
  · right
    rw [main_status_step] at h
    rw [if_pos (by exact hc)] at h
    rcases hp : print_status t s2 with ⟨rp, rep, sp, evp⟩
    rw [hp] at h
    simp at h
    obtain ⟨h1, h2, h3⟩ := h
    subst h2 h3
    exact ⟨hc, rp, rep, rfl, h1.symm⟩
  · left
    rw [main_status_step] at h
    rw [if_neg (by exact hc)] at h
    simp at h
    obtain ⟨h1, h2, h3⟩ := h
    subst h1 h2 h3
    exact ⟨hc, rfl, rfl, rfl⟩

theorem main_inv (t : Transport) (args : Arguments) (fuel : Nat)
    (r : Nat) (ev : List Event) (h : main true t args fuel = some (r, ev)) :
    ∃ ret1 s1 ev1 ret2 s2 ev2 ret3 s3 ev3,
      main_move_step t args = (ret1, s1, ev1) ∧
      main_fire_step t args fuel ret1 s1 = some (ret2, s2, ev2) ∧
      main_status_step t args ret2 s2 = (ret3, s3, ev3) ∧
      r = ret3 ∧
      ev = Event.openDev :: (ev1 ++ ev2 ++ ev3) ++ [Event.closeDev] := by
  rw [main] at h
  simp only [if_true] at h
  rcases hmv : main_move_step t args with ⟨ret1, s1, ev1⟩
  rw [hmv] at h
  cases hfs : main_fire_step t args fuel ret1 s1 with
  | none => rw [hfs] at h; simp at h
  | some out2 =>
    obtain ⟨ret2, s2, ev2⟩ := out2
    rw [hfs] at h
    simp only [Option.some.injEq] at h ⊢
    rcases hss : main_status_step t args ret2 s2 with ⟨ret3, s3, ev3⟩
    simp [hss] at h
    obtain ⟨h1, h2⟩ := h
    subst h1 h2
    exact ⟨ret1, s1, ev1, ret2, s2, ev2, ret3, s3, ev3, rfl, hfs, hss, rfl, by simp⟩

theorem noSecondActive_closeDev (a : Bool) :
    noSecondActive [Event.closeDev] a = true := by
  cases a <;> rfl

theorem main_noSecondActive (openOk : Bool) (t : Transport) (args : Arguments)
    (fuel : Nat) (r : Nat) (ev : List Event)
    (h : main openOk t args fuel = some (r, ev)) :
    noSecondActive ev false = true := by
  cases openOk
  · rw [main] at h
    simp at h
    obtain ⟨-, h2⟩ := h
    subst h2
    rfl
  · obtain ⟨ret1, s1, ev1, ret2, s2, ev2, ret3, s3, ev3, hmv, hfs, hss, -, hev⟩ :=
      main_inv t args fuel r ev h
    subst hev
    have hA1 : noSecondActive ev1 false = true ∧
        (ret1 = 0 → armedAfter ev1 false = false) := by
      rcases main_move_step_cases t args ret1 s1 ev1 hmv with
        ⟨-, -, -, hev1⟩ | ⟨-, rm, hmt, hr⟩
      · subst hev1
        exact ⟨rfl, fun _ => rfl⟩
      · obtain ⟨f1, f2, -⟩ := move_turret_trace_facts t ⟨0, 0⟩ args.movement
          args.movement_duration rm s1 ev1 hmt
        refine ⟨f1, fun h0 => f2 ?_⟩
        rcases eq_or_ne rm 0 with hrm | hrm
        · exact hrm
        · rw [hr, if_neg hrm] at h0
          simp at h0
    have hA2 : noSecondActive ev2 (armedAfter ev1 false) = true ∧
        (ret2 = 0 → armedAfter ev2 (armedAfter ev1 false) = false) := by
      rcases main_fire_step_cases t args fuel ret1 s1 ret2 s2 ev2 hfs with
        ⟨-, hr2, -, hev2⟩ | ⟨⟨-, hret1⟩, rf, hf, hr2⟩
      · subst hev2
        refine ⟨rfl, fun h0 => ?_⟩
        rw [armedAfter]
        exact hA1.2 (hr2 ▸ h0)
      · have harm : armedAfter ev1 false = false := hA1.2 hret1
        rw [harm]
        obtain ⟨f1, f2, -⟩ := fire_missile_trace_facts t s1 fuel rf s2 ev2 hf
        refine ⟨f1, fun h0 => f2 ?_⟩
        rcases eq_or_ne rf 0 with hrf | hrf
        · exact hrf
        · rw [hr2, if_neg hrf] at h0
          simp at h0
    have hA3 : ∀ a, noSecondActive ev3 a = true := by
      rcases main_status_step_cases t args ret2 s2 ret3 s3 ev3 hss with
        ⟨-, -, -, hev3⟩ | ⟨-, rp, rep, hp, -⟩
      · subst hev3
        intro a
        rfl
      · intro a
        exact (noSecondActive_neutral ev3
          (fun e he => (print_status_trace_facts t s2 rp rep s3 ev3 hp e he).1) a).1
    change noSecondActive ((ev1 ++ ev2 ++ ev3) ++ [Event.closeDev]) false = true
    rw [noSecondActive_append, noSecondActive_append, noSecondActive_append]
    rw [hA1.1, hA2.1, hA3 _, noSecondActive_closeDev]
    rfl

/-- C6: in every execution of `main`, the event trace never contains a
second Move or Fire frame unless a Stop frame was issued between it and
the previous Move or Fire frame: whenever the trace splits around two
active-movement writes, some event strictly between them is a Stop
write. -/
theorem active_movement_invariant_spec :
    ∀ openOk t args fuel r ev, main openOk t args fuel = some (r, ev) →
    ∀ l1 e1 l2 e2 l3, ev = l1 ++ e1 :: (l2 ++ e2 :: l3) →
      isActive e1 = true → isActive e2 = true →
      ∃ e ∈ l2, isStop e = true := by
  intro openOk t args fuel r ev h l1 e1 l2 e2 l3 hev h1 h2
  have hN := main_noSecondActive openOk t args fuel r ev h
  exact noSecondActive_between l1 e1 l2 e2 l3 false (hev ▸ hN) h1 h2

theorem count_eq_zero_of_no_openClose (l : List Event)
    (h : ∀ e ∈ l, isOpenClose e = false) :
    l.count Event.openDev = 0 ∧ l.count Event.closeDev = 0 := by
  constructor <;> rw [List.count_eq_zero] <;> intro hm <;>
    simpa [isOpenClose] using h _ hm

theorem main_move_step_no_openClose (t : Transport) (args : Arguments)
    (ret1 : Nat) (s1 : St) (ev1 : List Event)
    (h : main_move_step t args = (ret1, s1, ev1)) :
    ∀ e ∈ ev1, isOpenClose e = false := by
  rcases main_move_step_cases t args ret1 s1 ev1 h with
    ⟨-, -, -, hev1⟩ | ⟨-, rm, hmt, -⟩
  · subst hev1; simp
  · exact (move_turret_trace_facts t ⟨0, 0⟩ args.movement
      args.movement_duration rm s1 ev1 hmt).2.2

theorem main_fire_step_no_openClose (t : Transport) (args : Arguments) (fuel : Nat)
    (ret1 : Nat) (s1 : St) (ret2 : Nat) (s2 : St) (ev2 : List Event)
    (h : main_fire_step t args fuel ret1 s1 = some (ret2, s2, ev2)) :
    ∀ e ∈ ev2, isOpenClose e = false := by
  rcases main_fire_step_cases t args fuel ret1 s1 ret2 s2 ev2 h with
    ⟨-, -, -, hev2⟩ | ⟨-, rf, hf, -⟩
  · subst hev2; simp
  · exact (fire_missile_trace_facts t s1 fuel rf s2 ev2 hf).2.2

theorem main_status_step_no_openClose (t : Transport) (args : Arguments)
    (ret2 : Nat) (s2 : St) (ret3 : Nat) (s3 : St) (ev3 : List Event)
    (h : main_status_step t args ret2 s2 = (ret3, s3, ev3)) :
    ∀ e ∈ ev3, isOpenClose e = false := by
  rcases main_status_step_cases t args ret2 s2 ret3 s3 ev3 h with
    ⟨-, -, -, hev3⟩ | ⟨-, rp, rep, hp, -⟩
  · subst hev3; simp
  · intro e he
    exact (print_status_trace_facts t s2 rp rep s3 ev3 hp e he).2

/-- C7: every `main` run performs at most one move, then at most one fire,
then at most one status query, in that fixed order (the trace decomposes as
open, move part, fire part, status part, close); the fire part is empty
unless requested and the move part succeeded, and the status part is empty
unless requested and everything before succeeded; when the open fails
nothing at all happens, and when it succeeds the device is opened once at
the start and closed exactly once at the very end of the trace on every
path. -/
theorem main_sequence_spec :
    ∀ openOk t args fuel r ev, main openOk t args fuel = some (r, ev) →
      (openOk = false → ev = []) ∧
      (openOk = true →
        ev.count Event.openDev = 1 ∧ ev.count Event.closeDev = 1 ∧
        ev.head? = some Event.openDev ∧ ev.getLast? = some Event.closeDev ∧
        ∃ ret1 s1 ev1 ret2 s2 ev2 ret3 s3 ev3,
          main_move_step t args = (ret1, s1, ev1) ∧
          main_fire_step t args fuel ret1 s1 = some (ret2, s2, ev2) ∧
          main_status_step t args ret2 s2 = (ret3, s3, ev3) ∧
          r = ret3 ∧
          ev = Event.openDev :: (ev1 ++ ev2 ++ ev3) ++ [Event.closeDev] ∧
          (args.movement = Movement.MOVEMENT_NONE → ev1 = []) ∧
          (args.movement ≠ Movement.MOVEMENT_NONE →
            ev1 = (move_turret t ⟨0, 0⟩ args.movement args.movement_duration).2.2) ∧
          (args.fire = false → ev2 = []) ∧
          (ret1 ≠ 0 → ev2 = [] ∧ ev3 = []) ∧
          (args.display_status = false → ev3 = []) ∧
          (ret2 ≠ 0 → ev3 = [])) := by
  intro openOk t args fuel r ev h
  constructor
  · intro hopen
    subst hopen
    rw [main] at h
    simp at h
    exact h.2
  · intro hopen
    subst hopen
    obtain ⟨ret1, s1, ev1, ret2, s2, ev2, ret3, s3, ev3, hmv, hfs, hss, hr, hev⟩ :=
      main_inv t args fuel r ev h
    have hio1 := main_move_step_no_openClose t args ret1 s1 ev1 hmv
    have hio2 := main_fire_step_no_openClose t args fuel ret1 s1 ret2 s2 ev2 hfs
    have hio3 := main_status_step_no_openClose t args ret2 s2 ret3 s3 ev3 hss
    have hc1 := count_eq_zero_of_no_openClose ev1 hio1
    have hc2 := count_eq_zero_of_no_openClose ev2 hio2
    have hc3 := count_eq_zero_of_no_openClose ev3 hio3
    subst hev
    refine ⟨?_, ?_, rfl, ?_, ret1, s1, ev1, ret2, s2, ev2, ret3, s3, ev3,
      hmv, hfs, hss, hr, rfl, ?_, ?_, ?_, ?_, ?_, ?_⟩
    · simp [List.count_cons, List.count_append, hc1.1, hc2.1, hc3.1]
    · simp [List.count_cons, List.count_append, hc1.2, hc2.2, hc3.2]
    · rw [← List.cons_append, List.getLast?_concat]
    · intro hm
      rcases main_move_step_cases t args ret1 s1 ev1 hmv with
        ⟨-, -, -, hev1⟩ | ⟨hm', -, -, -⟩
      · exact hev1
      · exact absurd hm hm'
    · intro hm
      rcases main_move_step_cases t args ret1 s1 ev1 hmv with
        ⟨hm', -, -, -⟩ | ⟨-, rm, hmt, -⟩
      · exact absurd hm' hm
      · rw [hmt]
    · intro hf
      rcases main_fire_step_cases t args fuel ret1 s1 ret2 s2 ev2 hfs with
        ⟨-, -, -, hev2⟩ | ⟨⟨hf', -⟩, -⟩
      · exact hev2
      · rw [hf] at hf'
        exact absurd hf' (by simp)
    · intro hret1
      have hev2 : ev2 = [] ∧ ret2 = ret1 := by
        rcases main_fire_step_cases t args fuel ret1 s1 ret2 s2 ev2 hfs with
          ⟨-, hr2, -, hev2⟩ | ⟨⟨-, hr1⟩, -⟩
        · exact ⟨hev2, hr2⟩
        · exact absurd hr1 hret1
      refine ⟨hev2.1, ?_⟩
      rcases main_status_step_cases t args ret2 s2 ret3 s3 ev3 hss with
        ⟨-, -, -, hev3⟩ | ⟨⟨-, hr2⟩, -⟩
      · exact hev3
      · rw [hev2.2] at hr2
        exact absurd hr2 hret1
    · intro hd
      rcases main_status_step_cases t args ret2 s2 ret3 s3 ev3 hss with
        ⟨-, -, -, hev3⟩ | ⟨⟨hd', -⟩, -⟩
      · exact hev3
      · rw [hd] at hd'
        exact absurd hd' (by simp)
    · intro hret2
      rcases main_status_step_cases t args ret2 s2 ret3 s3 ev3 hss with
        ⟨-, -, -, hev3⟩ | ⟨⟨-, hr2⟩, -⟩
      · exact hev3
      · exact absurd hr2 hret2

theorem active_movement_invariant_spec_witness :
    ∃ e ∈ [Event.sleep 2500, Event.write [0, 32] true], isStop e = true :=
  active_movement_invariant_spec true mockFire
    ⟨Movement.MOVEMENT_PAN_LEFT, 2500, true, false⟩ 10 0
    [Event.openDev,
     Event.write [0, 4] true, Event.sleep 2500, Event.write [0, 32] true,
     Event.write [0, 16] true,
     Event.write [0, 64] true, Event.read (some 0),
     Event.write [0, 64] true, Event.read (some 0),
     Event.write [0, 64] true, Event.read (some 0),
     Event.write [0, 64] true, Event.read (some 16),
     Event.sleep 500000, Event.write [0, 32] true, Event.closeDev]
    (by decide)
    [Event.openDev] (Event.write [0, 4] true)
    [Event.sleep 2500, Event.write [0, 32] true]
    (Event.write [0, 16] true)
    [Event.write [0, 64] true, Event.read (some 0),
     Event.write [0, 64] true, Event.read (some 0),
     Event.write [0, 64] true, Event.read (some 0),
     Event.write [0, 64] true, Event.read (some 16),
     Event.sleep 500000, Event.write [0, 32] true, Event.closeDev]
    (by decide) (by decide) (by decide)

theorem main_sequence_spec_witness :
    ([Event.openDev, Event.closeDev].count Event.closeDev = 1) :=
  (((main_sequence_spec true mockAllOk default_arguments 1 0
    [Event.openDev, Event.closeDev] (by decide)).2 rfl).2).1

/-- C8 (refutation): with the default arguments (no flags), `main` sends no
command at all — the trace is just open followed by close and no Fire frame
is ever written — so the no-flags behavior is not equivalent to `--fire`,
contradicting the program's own documentation string; the third conjunct
exhibits a transport on which the two invocations differ. -/
theorem default_arguments_no_fire :
    (∀ t fuel, main true t default_arguments fuel =
      some (0, [Event.openDev, Event.closeDev])) ∧
    default_arguments.fire = false ∧
    main true mockFire { default_arguments with fire := true } 10 ≠
      main true mockFire default_arguments 10 := by
  refine ⟨fun t fuel => ?_, rfl, by decide⟩
  rw [main]
  simp [main_move_step, main_fire_step, main_status_step, default_arguments]

/-- C9 (refutation): the `--time` handler accepts the empty string and sets
the duration to 0 — because `arg != '\0'` compares the argument pointer
against a null pointer instead of testing the first character — while
ordinary in-range numerals are accepted scaled by 1000 and out-of-range or
non-numeric strings are rejected. -/
theorem time_option_empty_accepted :
    time_option_result [] = some 0 ∧
    time_option_result ['5', '0', '0'] = some 500000 ∧
    time_option_result ['9', '9', '9', '9'] = some 9999000 ∧
    time_option_result ['1', '0', '0', '0', '0'] = none ∧
    time_option_result ['a', 'b', 'c'] = none := by
  refine ⟨by decide, by decide, by decide, by decide, by decide⟩

end MissileLauncher
